import Mathlib

/-!
# Verification of the FormEase PDF form-filling pipeline

Shallow embedding, in Lean 4, of the core of the `formease-sea` repository:

* `src/lib/utils/pdf-processor.ts` — `cleanAIResponse`, `validatePDFFields`,
  `sanitizeFieldValues`;
* `src/lib/ai/tools/extract-pdf-form-spec.ts` — `extractJsonObject`;
* `src/app/(chat)/api/fill-pdf/route.ts` — `extractPDFFields`, `fillPDFFields`
  and the AI-response handling part of `POST`;
* `src/lib/utils/pdf-lib-processor.ts` — `fillPDFFieldsWithLib`.

JavaScript strings are modelled over `List Char` (ASCII semantics: `trim`
removes the four ASCII whitespace characters, `toLowerCase` is `Char.toLower`
pointwise, `substring`/`slice` work on characters).  JavaScript runtime values
reaching the pipeline from `JSON.parse` are modelled by the inductive `Json`
(numbers restricted to integers; the pipeline's claims use none beyond `0` and
`1`).  The stateful pdf-lib widget mutations (`setText`, `check`, `uncheck`,
`select`) are modelled as pure updates of a `Widget` record, and `console.warn`
output as an explicit warnings list.
-/

namespace FormEase

/-! ## JavaScript string primitives (ASCII model) -/

/-- The four ASCII whitespace characters removed by `String.prototype.trim`
(model restricted to ASCII; the sources only ever meet these four). -/
def jsWhitespace (c : Char) : Bool :=
  c = ' ' || c = '\t' || c = '\n' || c = '\r'

/-- JS `String.prototype.trim` on the ASCII model. -/
def jsTrim (s : String) : String :=
  ⟨((s.data.dropWhile jsWhitespace).reverse.dropWhile jsWhitespace).reverse⟩

/-- JS `String.prototype.toLowerCase` (ASCII model: `Char.toLower` pointwise). -/
def jsToLowerCase (s : String) : String :=
  ⟨s.data.map Char.toLower⟩

/-- JS `s.startsWith(p)` (character model). -/
def jsStartsWith (s p : String) : Bool :=
  p.data.isPrefixOf s.data

/-- JS `s.endsWith(p)` (character model). -/
def jsEndsWith (s p : String) : Bool :=
  p.data.isSuffixOf s.data

/-- JS `s.substring(n)` — drop the first `n` characters. -/
def jsDrop (s : String) (n : Nat) : String :=
  ⟨s.data.drop n⟩

/-- JS `s.substring(0, n)` — keep the first `n` characters. -/
def jsTake (s : String) (n : Nat) : String :=
  ⟨s.data.take n⟩

/-! ## JavaScript runtime values

`JSON.parse` returns arbitrary JS values even though the TypeScript code
declares `Record<string, string>`; the sanitizer's `value.toString()` and the
truthiness test `if (field && value)` operate on those runtime values, so the
embedding models them explicitly.  Numbers are restricted to integers. -/

/-- A JavaScript value as produced by `JSON.parse` (numbers as integers). -/
inductive Json where
  | null
  | bool (b : Bool)
  | num (n : Int)
  | str (s : String)
  | arr (elems : List Json)
  | obj (members : List (String × Json))
deriving Repr

/-- JS truthiness of a `Json` value: `""`, `false`, `0` and `null` are falsy,
everything else (including every array and object) is truthy. -/
def jsTruthy : Json → Bool
  | .null => false
  | .bool b => b
  | .num n => n != 0
  | .str s => s != ""
  | .arr _ => true
  | .obj _ => true

/-- An atomic value as rendered by `toString` / `Array.prototype.join`. -/
def jsAtomString : Json → String
  | .null => "null"
  | .bool true => "true"
  | .bool false => "false"
  | .num n => toString n
  | .str s => s
  | .arr _ => ""
  | .obj _ => "[object Object]"

/-- An array element as rendered by `Array.prototype.join(',')`: `null`
renders empty.  Model restriction: an array nested inside an array also
renders empty, where JS would flatten it recursively — the pipeline never
meets array-valued form fields, and no claim exercises this corner. -/
def jsJoinElem : Json → String
  | .null => ""
  | j => jsAtomString j

/-- `Array.prototype.join(',')` over the modelled values. -/
def jsJoinElems : List Json → String
  | [] => ""
  | [x] => jsJoinElem x
  | x :: xs => jsJoinElem x ++ "," ++ jsJoinElems xs

/-- JS `value.toString()` for the modelled values: strings are themselves,
booleans print `true`/`false`, numbers print in decimal, `null` prints
`"null"`, arrays join their elements with commas, and plain objects print
`"[object Object]"`. -/
def jsToString : Json → String
  | .arr elems => jsJoinElems elems
  | j => jsAtomString j

/-! ## Field descriptors (`PDFField` of `pdf-processor.ts`) -/

/-- `PDFField` of `src/lib/utils/pdf-processor.ts`: name, label, kind string
(`"text" | "checkbox" | "radio" | "dropdown" | "unknown"`), optional maximum
length. -/
structure PDFField where
  name : String
  label : String
  type : String
  maxLength : Option Nat := none
deriving Repr, DecidableEq

/-- A descriptor as seen by the dynamic `typeof` checks of
`validatePDFFields`: at runtime nothing guarantees `name` and `type` are
strings, so they are modelled as arbitrary `Json` values. -/
structure DynPDFField where
  name : Json
  label : Json
  type : Json
  maxLength : Option Json := none

/-- `typeof v === 'string'` on a modelled value. -/
def jsTypeofIsString : Json → Bool
  | .str _ => true
  | _ => false

/-- `validatePDFFields` of `src/lib/utils/pdf-processor.ts`, applied to an
array (the `Array.isArray` guard holds by typing): every entry must have a
string-typed `name` and a string-typed `type`.  Nothing else is checked — not
emptiness of the list, not emptiness of `name`, not membership of `type` in
the five known kinds. -/
def validatePDFFields (fields : List DynPDFField) : Bool :=
  fields.all fun f => jsTypeofIsString f.name && jsTypeofIsString f.type

/-- View a statically-typed descriptor as the dynamic value reaching
`validatePDFFields` at runtime. -/
def PDFField.toDyn (f : PDFField) : DynPDFField :=
  { name := .str f.name
    label := .str f.label
    type := .str f.type
    maxLength := f.maxLength.map fun n => .num (Int.ofNat n) }

/-! ## The sanitizer (`sanitizeFieldValues` of `pdf-processor.ts`)

```js
for (const [fieldName, value] of Object.entries(fieldValues)) {
  const field = fields.find(f => f.name === fieldName);
  if (field && value) {
    let sanitizedValue = value.toString().trim();
    if (field.maxLength && sanitizedValue.length > field.maxLength) {
      sanitizedValue = sanitizedValue.substring(0, field.maxLength);
    }
    sanitized[fieldName] = sanitizedValue;
  }
}
```

The input map is the runtime result of `JSON.parse`, hence `String × Json`
entries in insertion order; a JS object has pairwise-distinct keys, expressed
as a `Nodup` hypothesis where a theorem needs it. -/

/-- The body of the sanitizer's `if`: `value.toString().trim()`, truncated to
`field.maxLength` when that is declared, non-zero (JS `&&` on a number) and
exceeded. -/
def sanitizeValue (field : PDFField) (value : Json) : String :=
  let sv := jsTrim (jsToString value)
  match field.maxLength with
  | some m => if (m != 0) && (sv.length > m) then jsTake sv m else sv
  | none => sv

/-- `sanitizeFieldValues` of `src/lib/utils/pdf-processor.ts`. -/
def sanitizeFieldValues (fieldValues : List (String × Json)) (fields : List PDFField) :
    List (String × String) :=
  match fieldValues with
  | [] => []
  | (fieldName, value) :: rest =>
    match fields.find? (fun f => f.name = fieldName) with
    | some field =>
      if jsTruthy value then
        (fieldName, sanitizeValue field value) :: sanitizeFieldValues rest fields
      else
        sanitizeFieldValues rest fields
    | none => sanitizeFieldValues rest fields

/-- Lift a `Record<string, string>` (the sanitizer's own output type) back to
the runtime-value map type, for composing `sanitize` with itself. -/
def strEntries (m : List (String × String)) : List (String × Json) :=
  m.map fun p => (p.1, .str p.2)

/-! ## The response parsers

`cleanAIResponse` (`src/lib/utils/pdf-processor.ts`, used by the fill route):

```js
let cleaned = responseText.trim();
if (cleaned.startsWith('```json')) cleaned = cleaned.substring(7);
if (cleaned.endsWith('```')) cleaned = cleaned.substring(0, cleaned.length - 3);
return cleaned.trim();
```
-/

/-- `cleanAIResponse` of `src/lib/utils/pdf-processor.ts`. -/
def cleanAIResponse (responseText : String) : String :=
  let cleaned := jsTrim responseText
  let cleaned := if jsStartsWith cleaned "```json" then jsDrop cleaned 7 else cleaned
  let cleaned := if jsEndsWith cleaned "```" then jsTake cleaned (cleaned.length - 3) else cleaned
  jsTrim cleaned

/-- JS word character (`\w` of the `\bTrue\b` regexes): letters, digits, underscore
(ASCII model). -/
def jsWordChar (c : Char) : Bool :=
  ('a' ≤ c && c ≤ 'z') || ('A' ≤ c && c ≤ 'Z') || ('0' ≤ c && c ≤ '9') || c = '_'

/-- One global pass of `.replace(/\bTrue\b/g, 'true')`: replace every
occurrence of `True` delimited by word boundaries.  `prevWord` records whether
the character just before the scan position is a word character. -/
def replaceTrueAux (prevWord : Bool) : List Char → List Char
  | 'T' :: 'r' :: 'u' :: 'e' :: rest =>
    if !prevWord && (match rest with | [] => true | c :: _ => !jsWordChar c) then
      't' :: 'r' :: 'u' :: 'e' :: replaceTrueAux true rest
    else
      'T' :: replaceTrueAux true ('r' :: 'u' :: 'e' :: rest)
  | c :: rest => c :: replaceTrueAux (jsWordChar c) rest
  | [] => []

/-- One global pass of `.replace(/\bFalse\b/g, 'false')`. -/
def replaceFalseAux (prevWord : Bool) : List Char → List Char
  | 'F' :: 'a' :: 'l' :: 's' :: 'e' :: rest =>
    if !prevWord && (match rest with | [] => true | c :: _ => !jsWordChar c) then
      'f' :: 'a' :: 'l' :: 's' :: 'e' :: replaceFalseAux true rest
    else
      'F' :: replaceFalseAux true ('a' :: 'l' :: 's' :: 'e' :: rest)
  | c :: rest => c :: replaceFalseAux (jsWordChar c) rest
  | [] => []

/-- `t.replace(/\bTrue\b/g, 'true').replace(/\bFalse\b/g, 'false')`. -/
def replacePythonBools (s : String) : String :=
  ⟨replaceFalseAux false (replaceTrueAux false s.data)⟩

/-- `extractJsonObject` of `src/lib/ai/tools/extract-pdf-form-spec.ts`:

```js
let t = (text || '').trim();
if (t.startsWith('```')) {
  t = t.replace(/^```(?:json)?/i, '').replace(/```$/, '').trim();
}
t = t.replace(/\bTrue\b/g, 'true').replace(/\bFalse\b/g, 'false');
const start = t.indexOf('{');
const end = t.lastIndexOf('}');
if (start === -1 || end === -1 || end <= start) throw new Error('No JSON object found in model output');
return t.slice(start, end + 1);
```

The thrown `Error` is the spec's `ResponseParseError`; it is modelled by the
`Except.error` branch carrying the same message. -/
def extractJsonObject (text : String) : Except String String :=
  let t := jsTrim text
  let t :=
    if jsStartsWith t "```" then
      let t₁ := jsDrop t 3
      let t₁ := if jsToLowerCase (jsTake t₁ 4) = "json" then jsDrop t₁ 4 else t₁
      let t₂ := if jsEndsWith t₁ "```" then jsTake t₁ (t₁.length - 3) else t₁
      jsTrim t₂
    else t
  let t := replacePythonBools t
  match t.data.findIdx? (· = '{'), t.data.reverse.findIdx? (· = '}') with
  | some start, some revEnd =>
    let stop := t.length - 1 - revEnd
    if stop ≤ start then .error "No JSON object found in model output"
    else .ok ⟨(t.data.drop start).take (stop + 1 - start)⟩
  | _, _ => .error "No JSON object found in model output"

/-! ## A model of `JSON.parse`

Strict recursive-descent parser for the JSON grammar (objects, arrays,
strings with the common escapes, integer numbers, `true`/`false`/`null`),
with fuel for termination.  It is a model of the platform's `JSON.parse`
restricted to the fragment the pipeline exercises; on that fragment it fails
exactly where `JSON.parse` throws a `SyntaxError`. -/

/-- Skip JSON insignificant whitespace. -/
def skipWs : List Char → List Char
  | c :: cs => if c = ' ' || c = '\t' || c = '\n' || c = '\r' then skipWs cs else c :: cs
  | [] => []

/-- Parse the remainder of a JSON string literal after the opening quote. -/
def parseStringRest : List Char → Option (String × List Char)
  | [] => none
  | '"' :: rest => some ("", rest)
  | '\\' :: e :: rest =>
    (match e with
     | '"' => some '"'
     | '\\' => some '\\'
     | '/' => some '/'
     | 'n' => some '\n'
     | 't' => some '\t'
     | 'r' => some '\r'
     | _ => none).bind fun c =>
      (parseStringRest rest).map fun (sr : String × List Char) => (String.mk (c :: sr.1.data), sr.2)
  | c :: rest =>
    if c = '\\' || c = '"' then none
    else (parseStringRest rest).map fun (sr : String × List Char) => (String.mk (c :: sr.1.data), sr.2)

/-- Parse an unsigned integer literal (no fraction/exponent in the model). -/
def parseIntDigits (l : List Char) : Option (Nat × List Char) :=
  match l with
  | c :: _ =>
    if c.isDigit then
      let ds := l.takeWhile Char.isDigit
      some (digitsToNat ds, l.dropWhile Char.isDigit)
    else none
  | [] => none
where
  /-- Decimal digits to `Nat`. -/
  digitsToNat (ds : List Char) : Nat :=
    ds.foldl (fun acc c => acc * 10 + (c.toNat - '0'.toNat)) 0

mutual

/-- Parse one JSON value (with fuel). -/
def parseVal : Nat → List Char → Option (Json × List Char)
  | 0, _ => none
  | fuel + 1, l =>
    match skipWs l with
    | 'n' :: 'u' :: 'l' :: 'l' :: r => some (.null, r)
    | 't' :: 'r' :: 'u' :: 'e' :: r => some (.bool true, r)
    | 'f' :: 'a' :: 'l' :: 's' :: 'e' :: r => some (.bool false, r)
    | '"' :: r => (parseStringRest r).map fun (s, r') => (.str s, r')
    | '[' :: r =>
      (match skipWs r with
       | ']' :: r' => some (.arr [], r')
       | _ => (parseElems fuel r).map fun (xs, r') => (.arr xs, r'))
    | '{' :: r =>
      (match skipWs r with
       | '}' :: r' => some (.obj [], r')
       | _ => (parseMembers fuel r).map fun (kvs, r') => (.obj kvs, r'))
    | '-' :: r => (parseIntDigits r).map fun (n, r') => (.num (-(n : Int)), r')
    | l' => (parseIntDigits l').map fun (n, r') => (.num (n : Int), r')

/-- Parse comma-separated JSON array elements up to the closing bracket. -/
def parseElems : Nat → List Char → Option (List Json × List Char)
  | 0, _ => none
  | fuel + 1, l =>
    (parseVal fuel l).bind fun (v, r) =>
      match skipWs r with
      | ',' :: r' => (parseElems fuel r').map fun (xs, r'') => (v :: xs, r'')
      | ']' :: r' => some ([v], r')
      | _ => none

/-- Parse comma-separated JSON object members up to the closing brace. -/
def parseMembers : Nat → List Char → Option (List (String × Json) × List Char)
  | 0, _ => none
  | fuel + 1, l =>
    match skipWs l with
    | '"' :: r =>
      (parseStringRest r).bind fun (k, r₁) =>
        match skipWs r₁ with
        | ':' :: r₂ =>
          (parseVal fuel r₂).bind fun (v, r₃) =>
            match skipWs r₃ with
            | ',' :: r₄ => (parseMembers fuel r₄).map fun (kvs, r₅) => ((k, v) :: kvs, r₅)
            | '}' :: r₄ => some ([(k, v)], r₄)
            | _ => none
        | _ => none
    | _ => none

end

/-- The model of `JSON.parse`: parse one value and require only whitespace
after it; `none` models a thrown `SyntaxError`. -/
def jsonParse (s : String) : Option Json :=
  match parseVal (2 * s.length + 8) s.data with
  | some (v, rest) => if (skipWs rest).isEmpty then some v else none
  | none => none

/-- `Object.entries` of the value returned by `JSON.parse`: for an object,
its members with JS assignment semantics (a repeated key keeps its first
position but the last value); for every other value, the empty list. -/
def jsEntries : Json → List (String × Json)
  | .obj kvs => kvs.foldl (fun acc kv => setKey acc kv.1 kv.2) []
  | _ => []
where
  /-- `o[k] = v` on an insertion-ordered association list. -/
  setKey : List (String × Json) → String → Json → List (String × Json)
    | [], k, v => [(k, v)]
    | (k', v') :: rest, k, v =>
      if k' = k then (k', v) :: rest else (k', v') :: setKey rest k v

/-! ## The pdf-lib document model

A live interactive widget of the loaded document.  The kind corresponds to
the `instanceof` dispatch over `PDFTextField` / `PDFCheckBox` /
`PDFRadioGroup` / `PDFDropdown` (anything else — buttons, signatures — is
`unknown`).  `maxLength` models `PDFTextField.getMaxLength()` (`none` when
the widget exposes no length), `options` models `getOptions()` of a choice
group, and the three value slots model the mutable widget state touched by
`setText` / `check` / `uncheck` / `select`. -/

/-- Widget kind, per the `instanceof` dispatch. -/
inductive WidgetKind where
  | text
  | checkbox
  | radio
  | dropdown
  | unknown
deriving Repr, DecidableEq

/-- A live form widget. -/
structure Widget where
  name : String
  kind : WidgetKind
  maxLength : Option Nat := none
  options : List String := []
  textValue : String := ""
  checked : Bool := false
  selected : Option String := none
deriving Repr, DecidableEq

/-- A loaded PDF document, reduced to its form (`pdfDoc.getForm().getFields()`). -/
structure PDFDoc where
  fields : List Widget
deriving Repr, DecidableEq

/-- The kind string assigned by the extractors' `instanceof` chain. -/
def kindTypeString : WidgetKind → String
  | .text => "text"
  | .checkbox => "checkbox"
  | .radio => "radio"
  | .dropdown => "dropdown"
  | .unknown => "unknown"

/-- `extractPDFFields` of `src/app/(chat)/api/fill-pdf/route.ts` (the
`extractPDFFieldsWithLib` variant in `pdf-lib-processor.ts` is the same
code): one descriptor per widget, `label` defaulting to `name`, and, for text
widgets, `maxLength = field.getMaxLength() || undefined` — the JS `||`
turns an exposed length of `0` into `undefined`. -/
def extractPDFFields (doc : PDFDoc) : List PDFField :=
  doc.fields.map fun w =>
    { name := w.name
      label := w.name
      type := kindTypeString w.kind
      maxLength :=
        match w.kind, w.maxLength with
        | .text, some m => if m = 0 then none else some m
        | _, _ => none }

/-- The checkbox truth-test of the route's `fillPDFFields`:
`value.toLowerCase() === 'true' || value.toLowerCase() === 'yes' ||
value === '1' || value.toLowerCase() === 'on' ||
value.toLowerCase() === 'checked'`. -/
def shouldCheckRoute (value : String) : Bool :=
  jsToLowerCase value = "true" || jsToLowerCase value = "yes" || value = "1" ||
    jsToLowerCase value = "on" || jsToLowerCase value = "checked"

/-- The checkbox truth-test of `fillPDFFieldsWithLib` in
`pdf-lib-processor.ts`: as the route's, but without the `'checked'` clause. -/
def shouldCheckLib (value : String) : Bool :=
  jsToLowerCase value = "true" || jsToLowerCase value = "yes" || value = "1" ||
    jsToLowerCase value = "on"

/-- One dispatch step of the route's `fillPDFFields` on the widget returned
by `form.getField`, producing the updated widget and the `console.warn`
messages the branch emits. -/
def fillWidgetRoute (w : Widget) (value : String) : Widget × List String :=
  match w.kind with
  | .text => ({ w with textValue := value }, [])
  | .checkbox => ({ w with checked := shouldCheckRoute value }, [])
  | .radio =>
    if w.options.contains value then ({ w with selected := some value }, [])
    else (w, ["Radio field " ++ w.name ++ " does not have option " ++ value])
  | .dropdown =>
    if w.options.contains value then ({ w with selected := some value }, [])
    else (w, ["Dropdown field " ++ w.name ++ " does not have option " ++ value])
  | .unknown => (w, ["Unknown field type for " ++ w.name ++ ", skipping"])

/-- One dispatch step of `fillPDFFieldsWithLib`: same text/choice handling but
the four-token checkbox test, no warning for an absent choice option, and no
warning for an unknown kind. -/
def fillWidgetLib (w : Widget) (value : String) : Widget × List String :=
  match w.kind with
  | .text => ({ w with textValue := value }, [])
  | .checkbox => ({ w with checked := shouldCheckLib value }, [])
  | .radio =>
    if w.options.contains value then ({ w with selected := some value }, []) else (w, [])
  | .dropdown =>
    if w.options.contains value then ({ w with selected := some value }, []) else (w, [])
  | .unknown => (w, [])

/-- `form.getField(name)` followed by the per-kind mutation: update the first
widget carrying the name; when none exists `getField` throws, the per-field
`catch` logs `Could not fill field …` and the loop continues. -/
def fillOneField (step : Widget → String → Widget × List String) :
    List Widget → String → String → List Widget × List String
  | [], fieldName, _ => ([], ["Could not fill field " ++ fieldName])
  | w :: ws, fieldName, value =>
    if w.name = fieldName then
      let (w', warns) := step w value
      (w' :: ws, warns)
    else
      let (ws', warns) := fillOneField step ws fieldName value
      (w :: ws', warns)

/-- `fillPDFFields` of `src/app/(chat)/api/fill-pdf/route.ts`: iterate the
`(name, value)` entries in order, each one isolated by its own `try`/`catch`;
returns the mutated document and the accumulated `console.warn` log. -/
def fillPDFFields (doc : PDFDoc) (fieldValues : List (String × String)) :
    PDFDoc × List String :=
  match fieldValues with
  | [] => (doc, [])
  | (fieldName, value) :: rest =>
    let r := fillOneField fillWidgetRoute doc.fields fieldName value
    let r' := fillPDFFields ⟨r.1⟩ rest
    (r'.1, r.2 ++ r'.2)

/-- `fillPDFFieldsWithLib` of `src/lib/utils/pdf-lib-processor.ts`. -/
def fillPDFFieldsWithLib (doc : PDFDoc) (fieldValues : List (String × String)) :
    PDFDoc × List String :=
  match fieldValues with
  | [] => (doc, [])
  | (fieldName, value) :: rest =>
    let r := fillOneField fillWidgetLib doc.fields fieldName value
    let r' := fillPDFFieldsWithLib ⟨r.1⟩ rest
    (r'.1, r.2 ++ r'.2)

/-! ## The fill route's response shape and AI-response handling -/

/-- `FillPDFResponse` of `src/lib/utils/pdf-processor.ts`. -/
structure FillPDFResponse where
  success : Bool
  filledPdfUrl : Option String := none
  message : String
  fields : Option (List (String × String)) := none
deriving Repr, DecidableEq

/-- The tail of `POST` in `src/app/(chat)/api/fill-pdf/route.ts`, from the
model's raw text onward: clean the response, `JSON.parse` it — on a parse
failure answer `{ success: false, message: 'Failed to parse AI response for
field values' }` with no `fields` — otherwise sanitize against the extracted
descriptors, fill the document, and answer success with the sanitized map.
`blobUrl` stands for the URL the storage collaborator assigns to the filled
bytes. -/
def postHandleAIResponse (pdfFields : List PDFField) (doc : PDFDoc)
    (aiText : String) (blobUrl : String) : FillPDFResponse :=
  match jsonParse (cleanAIResponse aiText) with
  | none =>
    { success := false
      message := "Failed to parse AI response for field values" }
  | some parsed =>
    let sanitizedValues := sanitizeFieldValues (jsEntries parsed) pdfFields
    let _filled := fillPDFFields doc sanitizedValues
    { success := true
      filledPdfUrl := some blobUrl
      message := "PDF form filled successfully!"
      fields := some sanitizedValues }

/-! ## Structural views of widgets, and concrete scenario data -/

/-- The structural signature of a widget: name, kind and length constraint —
everything the extractor reads and the claims about structure preservation
quantify over. -/
def widgetSig (w : Widget) : String × WidgetKind × Option Nat :=
  (w.name, w.kind, w.maxLength)

/-- The descriptor built by the extractor, as a function of the structural
signature alone. -/
def descOfSig : String × WidgetKind × Option Nat → PDFField
  | (n, k, ml) =>
    { name := n
      label := n
      type := kindTypeString k
      maxLength :=
        match k, ml with
        | .text, some m => if m = 0 then none else some m
        | _, _ => none }

/-- Relation between a widget before and after a fill pass: the structure is
unchanged and a checked checkbox stays checked. -/
def wRel (w w' : Widget) : Prop :=
  widgetSig w' = widgetSig w ∧
    (w.kind = WidgetKind.checkbox → w.checked = true → w'.checked = true)

/-- The spec's §8 scenario schema: a 20-character text field and a checkbox. -/
def twoFieldSchema : List PDFField :=
  [⟨"full_name", "full_name", "text", some 20⟩,
   ⟨"is_llc", "is_llc", "checkbox", none⟩]

/-- The spec's §8 scenario raw model output, including a hallucinated key. -/
def modelRawOutput : List (String × Json) :=
  [("full_name", .str "Jonathan Alexander Smithsonian"),
   ("is_llc", .str "yes"),
   ("ghost_field", .str "x")]

/-- A one-field schema used by the idempotence counterexample. -/
def blankSchema : List PDFField := [⟨"a", "a", "text", none⟩]

/-- A raw map whose only value is a single space: truthy, but trimming to the
empty string. -/
def blankRaw : List (String × Json) := [("a", .str " ")]

/-- A model response with commentary around a ```json fence and Python-style
boolean literals. -/
def commentaryResponse : String :=
  "Sure, here is the JSON you asked for:\n```json\n\x7b\"name\": \"Ann\", \"is_llc\": True, \"active\": False\x7d\n```\nLet me know if you need anything else!"

/-- A fenced model response with a Python-style boolean literal. -/
def fencedPythonResponse : String := "```json\n\x7b\"is_llc\": True\x7d\n```"

/-- The clean JSON equivalent of `commentaryResponse`. -/
def cleanJsonResponse : String :=
  "\x7b\"name\": \"Ann\", \"is_llc\": true, \"active\": false\x7d"

/-- A bare JSON object with a Python-style boolean literal. -/
def pythonBoolObject : String := "\x7b\"is_llc\": True\x7d"

/-- A model response that is prose with no JSON braces at all. -/
def proseResponse : String := "I am sorry, but I cannot help with that request."

/-- A checkbox widget that is initially checked. -/
def agreeCheckbox : Widget := { name := "agree", kind := .checkbox, checked := true }

/-- A radio group with two options and a prior selection. -/
def colorRadio : Widget :=
  { name := "color", kind := .radio, options := ["Red", "Blue"], selected := some "Red" }

/-- A document holding just the checked checkbox. -/
def agreeDoc : PDFDoc := ⟨[agreeCheckbox]⟩

/-- A raw model output carrying the boolean `false` for the checkbox — the
shape the value-generation prompt demands. -/
def falseCheckboxRaw : List (String × Json) := [("agree", .bool false)]

/-! ## The spec's checkbox truth table

§4.7 of the spec words the checkbox coercion as a *case-insensitive match*
of the value against a list of tokens.  This definition follows the spec's
words, to be compared against the code's `shouldCheckRoute`/`shouldCheckLib`. -/

/-- Spec-worded truth table: the value, lowercased, is one of the tokens. -/
def specCheckboxTable (table : List String) (value : String) : Prop :=
  jsToLowerCase value ∈ table

instance (table : List String) (value : String) :
    Decidable (specCheckboxTable table value) := by
  unfold specCheckboxTable; infer_instance

/-! ## Character-level helper lemmas -/

/-- `Char.ofNat` inverts `toNat` on valid scalar values. -/
theorem charToNatOfNatValid (n : Nat) (h : n.isValidChar) : (Char.ofNat n).toNat = n := by
  unfold Char.ofNat
  rw [dif_pos h]
  unfold Char.ofNatAux Char.toNat
  simp [UInt32.toNat]

/-- Lowercasing a character yields `'1'` exactly for `'1'` itself. -/
theorem charToLowerEqOne (c : Char) : c.toLower = '1' ↔ c = '1' := by
  constructor
  · intro h
    by_cases hc : c.toNat ≥ 65 ∧ c.toNat ≤ 90
    · exfalso
      have h' : Char.toLower c = Char.ofNat (c.toNat + 32) := by
        unfold Char.toLower
        exact if_pos hc
      rw [h'] at h
      have hv : (Char.ofNat (c.toNat + 32)).toNat = '1'.toNat := by rw [h]
      rw [charToNatOfNatValid (c.toNat + 32) (Or.inl (by omega))] at hv
      have h49 : '1'.toNat = 49 := rfl
      omega
    · have h' : Char.toLower c = c := by
        unfold Char.toLower
        exact if_neg hc
      rw [h'] at h
      exact h
  · intro h; subst h; rfl

/-- Case-insensitive match against `"1"` is exact match: no other string
lowercases to `"1"`. -/
theorem jsToLowerEqOne (s : String) : jsToLowerCase s = "1" ↔ s = "1" := by
  obtain ⟨l⟩ := s
  rw [String.ext_iff, String.ext_iff]
  show l.map Char.toLower = ['1'] ↔ l = ['1']
  match l with
  | [] => simp
  | [c] => simpa using charToLowerEqOne c
  | a :: b :: t => simp

/-! ## Sanitizer lemmas -/

/-- `jsTake` cuts to at most `m` characters. -/
theorem jsTake_length_le (s : String) (m : Nat) : (jsTake s m).length ≤ m := by
  show (s.data.take m).length ≤ m
  rw [List.length_take]
  exact Nat.min_le_left _ _

/-- The sanitized value respects a declared non-zero maxLength. -/
theorem sanitizeValue_length_le (f : PDFField) (v : Json) (m : Nat)
    (hm : f.maxLength = some m) (hm0 : m ≠ 0) :
    (sanitizeValue f v).length ≤ m := by
  unfold sanitizeValue
  rw [hm]
  dsimp only
  split
  · exact jsTake_length_le _ m
  · rename_i h
    simp only [Bool.and_eq_true, bne_iff_ne, ne_eq, decide_eq_true_eq, not_and, not_lt] at h
    exact h hm0

/-- On an already-trimmed string within bounds, sanitizing is the identity. -/
theorem sanitizeValue_fix (f : PDFField) (v : String)
    (htrim : jsTrim v = v)
    (hlen : ∀ m, f.maxLength = some m → m ≠ 0 → v.length ≤ m) :
    sanitizeValue f (.str v) = v := by
  unfold sanitizeValue
  have hts : jsToString (.str v) = v := rfl
  rw [hts, htrim]
  cases hm : f.maxLength with
  | none => rfl
  | some m =>
    dsimp only
    split
    · rename_i h
      simp only [Bool.and_eq_true, bne_iff_ne, ne_eq, decide_eq_true_eq] at h
      exact absurd (hlen m hm h.1) (by omega)
    · rfl

/-- Provenance of a sanitizer output entry: it arises from a truthy raw entry
under the same key, through the first matching descriptor. -/
theorem sanitize_mem (x : List (String × Json)) (fields : List PDFField)
    (k : String) (v' : String) (h : (k, v') ∈ sanitizeFieldValues x fields) :
    ∃ v f, (k, v) ∈ x ∧ jsTruthy v = true ∧
      fields.find? (fun f => f.name = k) = some f ∧ v' = sanitizeValue f v := by
  induction x with
  | nil => simp [sanitizeFieldValues] at h
  | cons p rest ih =>
    obtain ⟨k₀, v₀⟩ := p
    rw [sanitizeFieldValues] at h
    cases hf : fields.find? (fun f => f.name = k₀) with
    | none =>
      rw [hf] at h
      obtain ⟨v, f, hm, ht, hfind, hval⟩ := ih h
      exact ⟨v, f, List.mem_cons_of_mem _ hm, ht, hfind, hval⟩
    | some f =>
      rw [hf] at h
      dsimp only at h
      by_cases ht : jsTruthy v₀
      · rw [if_pos ht] at h
        rcases List.mem_cons.mp h with heq | hmem
        · injection heq with hk hv
          subst hk
          subst hv
          exact ⟨v₀, f, List.mem_cons_self .., ht, hf, rfl⟩
        · obtain ⟨v, f', hm, ht', hfind, hval⟩ := ih hmem
          exact ⟨v, f', List.mem_cons_of_mem _ hm, ht', hfind, hval⟩
      · rw [if_neg ht] at h
        obtain ⟨v, f', hm, ht', hfind, hval⟩ := ih h
        exact ⟨v, f', List.mem_cons_of_mem _ hm, ht', hfind, hval⟩

/-- Re-sanitizing a map whose entries already resolve in the schema, are
trimmed, nonempty and within bounds, reproduces it unchanged. -/
theorem sanitize_fix (l : List (String × String)) (fields : List PDFField)
    (h : ∀ p ∈ l,
      (∃ f, fields.find? (fun f => f.name = p.1) = some f ∧
        (∀ m, f.maxLength = some m → m ≠ 0 → p.2.length ≤ m)) ∧
      jsTrim p.2 = p.2 ∧ p.2 ≠ "") :
    sanitizeFieldValues (strEntries l) fields = l := by
  induction l with
  | nil => rfl
  | cons p rest ih =>
    obtain ⟨k, v⟩ := p
    obtain ⟨⟨f, hf, hlen⟩, htrim, hne⟩ := h (k, v) (List.mem_cons_self ..)
    show sanitizeFieldValues ((k, Json.str v) :: strEntries rest) fields = (k, v) :: rest
    rw [sanitizeFieldValues, hf]
    dsimp only
    have ht : jsTruthy (Json.str v) = true := by simp [jsTruthy, hne]
    rw [if_pos ht, sanitizeValue_fix f v htrim hlen,
      ih (fun q hq => h q (List.mem_cons_of_mem _ hq))]

/-- Keys of the sanitizer's output come from keys of its input. -/
theorem sanitize_keys_sub_input (raw : List (String × Json)) (fields : List PDFField)
    (k : String) (hk : k ∈ (sanitizeFieldValues raw fields).map Prod.fst) :
    k ∈ raw.map Prod.fst := by
  obtain ⟨p, hp, hpk⟩ := List.mem_map.mp hk
  obtain ⟨v, f, hm, -, -, -⟩ := sanitize_mem raw fields p.1 p.2 hp
  exact hpk ▸ List.mem_map.mpr ⟨(p.1, v), hm, rfl⟩

/-! ## Fill-pass structure lemmas -/

theorem fillWidgetRoute_sig (w : Widget) (v : String) :
    widgetSig (fillWidgetRoute w v).1 = widgetSig w := by
  rcases w with ⟨n, k, ml, os, tv, ch, sel⟩
  cases k <;>
    simp only [fillWidgetRoute, widgetSig] <;>
    first
      | rfl
      | (split <;> rfl)

theorem fillWidgetLib_sig (w : Widget) (v : String) :
    widgetSig (fillWidgetLib w v).1 = widgetSig w := by
  rcases w with ⟨n, k, ml, os, tv, ch, sel⟩
  cases k <;>
    simp only [fillWidgetLib, widgetSig] <;>
    first
      | rfl
      | (split <;> rfl)

theorem fillOneField_sig (step : Widget → String → Widget × List String)
    (hstep : ∀ w v, widgetSig (step w v).1 = widgetSig w)
    (ws : List Widget) (fieldName value : String) :
    ((fillOneField step ws fieldName value).1).map widgetSig = ws.map widgetSig := by
  induction ws with
  | nil => rfl
  | cons w rest ih =>
    rw [fillOneField]
    by_cases hn : w.name = fieldName
    · rw [if_pos hn]
      simp only [List.map_cons, hstep]
    · rw [if_neg hn]
      simp only [List.map_cons]
      rw [ih]

theorem fillPDFFields_sig (doc : PDFDoc) (vs : List (String × String)) :
    ((fillPDFFields doc vs).1).fields.map widgetSig = doc.fields.map widgetSig := by
  induction vs generalizing doc with
  | nil => rfl
  | cons p rest ih =>
    obtain ⟨n, v⟩ := p
    rw [fillPDFFields]
    dsimp only
    rw [ih]
    exact fillOneField_sig fillWidgetRoute fillWidgetRoute_sig doc.fields n v

theorem fillPDFFieldsWithLib_sig (doc : PDFDoc) (vs : List (String × String)) :
    ((fillPDFFieldsWithLib doc vs).1).fields.map widgetSig = doc.fields.map widgetSig := by
  induction vs generalizing doc with
  | nil => rfl
  | cons p rest ih =>
    obtain ⟨n, v⟩ := p
    rw [fillPDFFieldsWithLib]
    dsimp only
    rw [ih]
    exact fillOneField_sig fillWidgetLib fillWidgetLib_sig doc.fields n v

/-- Extraction reads only the structural signatures. -/
theorem extract_eq_map_sig (doc : PDFDoc) :
    extractPDFFields doc = (doc.fields.map widgetSig).map descOfSig := by
  rw [List.map_map]
  rfl

theorem wRel_refl (w : Widget) : wRel w w :=
  ⟨rfl, fun _ h => h⟩

theorem forall₂_wRel_refl (l : List Widget) : List.Forall₂ wRel l l := by
  induction l with
  | nil => exact List.Forall₂.nil
  | cons w rest ih => exact List.Forall₂.cons (wRel_refl w) ih

theorem forall₂_wRel_trans {l₁ l₂ l₃ : List Widget}
    (h₁ : List.Forall₂ wRel l₁ l₂) (h₂ : List.Forall₂ wRel l₂ l₃) :
    List.Forall₂ wRel l₁ l₃ := by
  induction h₁ generalizing l₃ with
  | nil => cases h₂; exact List.Forall₂.nil
  | cons hw hrest ih =>
    cases h₂ with
    | cons hw' hrest' =>
      refine List.Forall₂.cons ⟨hw'.1.trans hw.1, ?_⟩ (ih hrest')
      intro hk hch
      have hbk := congrArg (fun p : String × WidgetKind × Option Nat => p.2.1) hw.1
      exact hw'.2 (hbk.trans hk) (hw.2 hk hch)

/-- Transport `find?` by name backwards along a `wRel` pass: the widget found
afterwards has the kind of the widget found before. -/
theorem forall₂_wRel_find? {ws ws' : List Widget}
    (h : List.Forall₂ wRel ws ws') (n : String) (w' : Widget)
    (hf : ws'.find? (fun w => w.name = n) = some w') :
    ∃ w₀, ws.find? (fun w => w.name = n) = some w₀ ∧ w₀.kind = w'.kind := by
  induction h with
  | nil => simp at hf
  | cons hw hrest ih =>
    rename_i a b l₁ l₂
    have hname : b.name = a.name := congrArg (fun p => p.1) hw.1
    have hkind : b.kind = a.kind := congrArg (fun p => p.2.1) hw.1
    by_cases hn : a.name = n
    · rw [List.find?_cons_of_pos _ (by simpa [hname] using hn)] at hf
      injection hf with hb
      subst hb
      exact ⟨a, List.find?_cons_of_pos _ (by simpa using hn), hkind.symm ▸ rfl⟩
    · rw [List.find?_cons_of_neg _ (by simpa [hname] using hn)] at hf
      obtain ⟨w₀, hw₀, hk₀⟩ := ih hf
      exact ⟨w₀, by rw [List.find?_cons_of_neg _ (by simpa using hn)]; exact hw₀, hk₀⟩

theorem fillOneField_wRel (ws : List Widget) (n v : String)
    (hcb : ∀ w₀, ws.find? (fun w => w.name = n) = some w₀ →
      w₀.kind = WidgetKind.checkbox → shouldCheckRoute v = true) :
    List.Forall₂ wRel ws ((fillOneField fillWidgetRoute ws n v).1) := by
  induction ws with
  | nil => exact List.Forall₂.nil
  | cons w rest ih =>
    rw [fillOneField]
    by_cases hn : w.name = n
    · rw [if_pos hn]
      dsimp only
      refine List.Forall₂.cons ⟨fillWidgetRoute_sig w v, ?_⟩ (forall₂_wRel_refl rest)
      intro hk hch
      have hfind : (w :: rest).find? (fun w => w.name = n) = some w :=
        List.find?_cons_of_pos _ (by simpa using hn)
      have hsc := hcb w hfind hk
      simp [fillWidgetRoute, hk, hsc]
    · rw [if_neg hn]
      dsimp only
      refine List.Forall₂.cons (wRel_refl w) (ih ?_)
      intro w₀ hf hk
      exact hcb w₀ (by rw [List.find?_cons_of_neg _ (by simpa using hn)]; exact hf) hk

theorem fillPDFFields_wRel (doc : PDFDoc) (vs : List (String × String))
    (hcb : ∀ p ∈ vs, ∀ w₀, doc.fields.find? (fun w => w.name = p.1) = some w₀ →
      w₀.kind = WidgetKind.checkbox → shouldCheckRoute p.2 = true) :
    List.Forall₂ wRel doc.fields ((fillPDFFields doc vs).1).fields := by
  induction vs generalizing doc with
  | nil => exact forall₂_wRel_refl _
  | cons p rest ih =>
    obtain ⟨n, v⟩ := p
    rw [fillPDFFields]
    dsimp only
    have hstep : List.Forall₂ wRel doc.fields
        ((fillOneField fillWidgetRoute doc.fields n v).1) :=
      fillOneField_wRel doc.fields n v
        (fun w₀ hf hk => hcb (n, v) (List.mem_cons_self ..) w₀ hf hk)
    have hrest : List.Forall₂ wRel ((fillOneField fillWidgetRoute doc.fields n v).1)
        ((fillPDFFields ⟨(fillOneField fillWidgetRoute doc.fields n v).1⟩ rest).1).fields := by
      refine ih ⟨(fillOneField fillWidgetRoute doc.fields n v).1⟩ ?_
      intro q hq w₀ hf hk
      obtain ⟨w₁, hw₁, hkind⟩ := forall₂_wRel_find? hstep q.1 w₀ hf
      exact hcb q (List.mem_cons_of_mem _ hq) w₁ hw₁ (hkind.trans hk)
    exact forall₂_wRel_trans hstep hrest

/-! ## Falsy-drop and extraction lookup lemmas -/

/-- A falsy raw value's key never survives sanitization (keys unique, as in a
JS object). -/
theorem sanitize_falsy_dropped (raw : List (String × Json)) (fields : List PDFField)
    (k : String) (v : Json) (hnd : (raw.map Prod.fst).Nodup)
    (hmem : (k, v) ∈ raw) (hfalsy : jsTruthy v = false) :
    k ∉ (sanitizeFieldValues raw fields).map Prod.fst := by
  induction raw with
  | nil => simp at hmem
  | cons p rest ih =>
    obtain ⟨k₀, v₀⟩ := p
    rw [List.map_cons, List.nodup_cons] at hnd
    rcases List.mem_cons.mp hmem with heq | hmemrest
    · injection heq with hk hv
      subst hk
      subst hv
      rw [sanitizeFieldValues]
      cases hf : fields.find? (fun f => f.name = k) with
      | none =>
        intro hcontra
        exact hnd.1 (sanitize_keys_sub_input rest fields k hcontra)
      | some f =>
        dsimp only
        rw [if_neg (by simp [hfalsy])]
        intro hcontra
        exact hnd.1 (sanitize_keys_sub_input rest fields k hcontra)
    · have hkrest : k ∈ rest.map Prod.fst :=
        List.mem_map.mpr ⟨(k, v), hmemrest, rfl⟩
      have hne : k ≠ k₀ := fun h => hnd.1 (h ▸ hkrest)
      rw [sanitizeFieldValues]
      cases hf : fields.find? (fun f => f.name = k₀) with
      | none => exact ih hnd.2 hmemrest
      | some f =>
        dsimp only
        by_cases ht : jsTruthy v₀
        · rw [if_pos ht, List.map_cons]
          intro hcontra
          rcases List.mem_cons.mp hcontra with h₁ | h₂
          · exact hne h₁
          · exact ih hnd.2 hmemrest h₂
        · rw [if_neg ht]
          exact ih hnd.2 hmemrest

/-- `find?` on the extracted descriptors mirrors `find?` on the widgets. -/
theorem extract_find? (doc : PDFDoc) (n : String) :
    (extractPDFFields doc).find? (fun f => f.name = n) =
      (doc.fields.find? (fun w => w.name = n)).map (fun w => descOfSig (widgetSig w)) := by
  rw [extract_eq_map_sig, List.map_map, List.find?_map]
  rfl

/-- Sanitizing the boolean `true` through a descriptor with no length
constraint yields the string `"true"`. -/
theorem sanitizeValue_bool_true (f : PDFField) (hml : f.maxLength = none) :
    sanitizeValue f (.bool true) = "true" := by
  unfold sanitizeValue
  rw [hml]
  rfl


/-! ## The claims -/

/-- Claim C1, counterexample: the claim says the value `"checked"` causes
every checkbox reached during filling to be checked, citing both fillers;
but `fillPDFFieldsWithLib` has no `'checked'` clause, so filling the checked
checkbox `agree` with the value `"checked"` actively unchecks it. -/
theorem checkbox_checked_token_counterexample :
    (fillPDFFieldsWithLib agreeDoc [("agree", "checked")]).1 =
      ⟨[{ name := "agree", kind := .checkbox, checked := false }]⟩ := by decide

/-- Claim C1, amended: for every checkbox field reached during filling, the
route's filler checks it exactly when the value matches, case-insensitively,
one of `"true"`, `"yes"`, `"1"`, `"on"`, `"checked"`; `fillPDFFieldsWithLib`
uses the same table without `"checked"`.  Every other string unchecks. -/
theorem checkbox_truth_tables (w : Widget) (value : String)
    (hk : w.kind = WidgetKind.checkbox) :
    ((fillWidgetRoute w value).1.checked = true ↔
      specCheckboxTable ["true", "yes", "1", "on", "checked"] value)
  ∧ ((fillWidgetLib w value).1.checked = true ↔
      specCheckboxTable ["true", "yes", "1", "on"] value) := by
  constructor
  · simp only [fillWidgetRoute, hk]
    simp [shouldCheckRoute, specCheckboxTable, jsToLowerEqOne]
    tauto
  · simp only [fillWidgetLib, hk]
    simp [shouldCheckLib, specCheckboxTable, jsToLowerEqOne]
    tauto

/-- Claim C1, witness: the truth table evaluated on a concrete checkbox and
the value `"YES"`. -/
theorem checkbox_truth_tables_witness :
    ((fillWidgetRoute agreeCheckbox "YES").1.checked = true ↔
      specCheckboxTable ["true", "yes", "1", "on", "checked"] "YES")
  ∧ ((fillWidgetLib agreeCheckbox "YES").1.checked = true ↔
      specCheckboxTable ["true", "yes", "1", "on"] "YES") :=
  checkbox_truth_tables agreeCheckbox "YES" rfl

/-- Claim C2, counterexample: on the spec's scenario the sanitizer does not
return `"Jonathan Alexander Smit"` — that string has 23 characters, more
than the declared `maxLength` of 20. -/
theorem sanitize_scenario_counterexample :
    sanitizeFieldValues modelRawOutput twoFieldSchema ≠
      [("full_name", "Jonathan Alexander Smit"), ("is_llc", "yes")] := by decide

/-- Claim C2, amended: on the scenario schema and raw output, sanitize drops
the hallucinated `ghost_field`, truncates the text value to its first 20
characters — `"Jonathan Alexander S"` — and passes the checkbox value
through as the string `"yes"`. -/
theorem sanitize_scenario_exact :
    sanitizeFieldValues modelRawOutput twoFieldSchema =
      [("full_name", "Jonathan Alexander S"), ("is_llc", "yes")] := by decide

/-- Claim C3, counterexample: the claim says every model response goes
through the four-step repair sequence, citing both parsers; but the fill
route's `cleanAIResponse` performs no boolean normalization and no brace
slicing: on `{"is_llc": True}` it is the identity, `JSON.parse` then fails,
while the full repair (as `extractJsonObject` performs it) produces decodable
JSON. -/
theorem clean_ai_response_counterexample :
    cleanAIResponse pythonBoolObject = pythonBoolObject
  ∧ extractJsonObject pythonBoolObject = Except.ok "\x7b\"is_llc\": true\x7d"
  ∧ pythonBoolObject ≠ "\x7b\"is_llc\": true\x7d"
  ∧ jsonParse (cleanAIResponse pythonBoolObject) = none
  ∧ jsonParse "\x7b\"is_llc\": true\x7d" = some (.obj [("is_llc", .bool true)]) :=
  ⟨rfl, rfl, by decide, rfl, rfl⟩

set_option maxRecDepth 8192

/-- Claim C3, amended: `extractJsonObject` (the question-spec parser) applies
trim, fence stripping, `True`/`False` normalization and first-`{`-to-last-`}`
slicing, so a response wrapped in a ```json fence with surrounding commentary
and Python-style booleans yields exactly the clean JSON text, which decodes;
`cleanAIResponse` (the fill-route parser) applies only trim and fence
stripping. -/
theorem extract_json_repair_sequence :
    extractJsonObject commentaryResponse = Except.ok cleanJsonResponse
  ∧ extractJsonObject fencedPythonResponse = Except.ok "\x7b\"is_llc\": true\x7d"
  ∧ extractJsonObject cleanJsonResponse = Except.ok cleanJsonResponse
  ∧ jsonParse cleanJsonResponse =
      some (.obj [("name", .str "Ann"), ("is_llc", .bool true), ("active", .bool false)]) :=
  ⟨rfl, rfl, rfl, rfl⟩

/-- Claim C4, counterexample: sanitize is not idempotent.  The value `" "` is
truthy, so the first pass keeps it and trims it to `""`; the second pass
drops the now-falsy empty string. -/
theorem sanitize_idempotence_counterexample :
    sanitizeFieldValues (strEntries (sanitizeFieldValues blankRaw blankSchema)) blankSchema ≠
      sanitizeFieldValues blankRaw blankSchema := by decide

/-- Claim C4, amended: sanitize is idempotent on every input whose first pass
produces only nonempty, already-trimmed values (equivalently: no raw value is
a nonempty string of whitespace, and no truncation cuts in front of trailing
whitespace). -/
theorem sanitize_idempotent_on_clean_values (x : List (String × Json)) (fields : List PDFField)
    (h : ∀ p ∈ sanitizeFieldValues x fields, jsTrim p.2 = p.2 ∧ p.2 ≠ "") :
    sanitizeFieldValues (strEntries (sanitizeFieldValues x fields)) fields =
      sanitizeFieldValues x fields := by
  apply sanitize_fix
  intro p hp
  obtain ⟨v, f, hm, ht, hfind, hval⟩ := sanitize_mem x fields p.1 p.2 hp
  exact ⟨⟨f, hfind, fun m hm' hm0 => hval ▸ sanitizeValue_length_le f v m hm' hm0⟩, h p hp⟩

/-- Claim C4, witness: idempotence on the spec's scenario data. -/
theorem sanitize_idempotent_on_clean_values_witness :
    sanitizeFieldValues (strEntries (sanitizeFieldValues modelRawOutput twoFieldSchema))
        twoFieldSchema =
      sanitizeFieldValues modelRawOutput twoFieldSchema :=
  sanitize_idempotent_on_clean_values modelRawOutput twoFieldSchema (by decide)

/-- Claim C5: sanitization never introduces a key absent from the schema —
every key of the output names some descriptor of the field list. -/
theorem sanitize_never_invents_keys (raw : List (String × Json)) (fields : List PDFField)
    (k : String) (hk : k ∈ (sanitizeFieldValues raw fields).map Prod.fst) :
    ∃ f ∈ fields, f.name = k := by
  obtain ⟨p, hp, hpk⟩ := List.mem_map.mp hk
  obtain ⟨v, f, hm, ht, hfind, hval⟩ := sanitize_mem raw fields p.1 p.2 hp
  refine ⟨f, List.mem_of_find?_eq_some hfind, ?_⟩
  have hname := List.find?_some hfind
  simp only [decide_eq_true_eq] at hname
  rw [hname, hpk]

/-- Claim C5, witness: the key `is_llc` of the scenario output names a
descriptor of the scenario schema. -/
theorem sanitize_never_invents_keys_witness :
    ∃ f ∈ twoFieldSchema, f.name = "is_llc" :=
  sanitize_never_invents_keys modelRawOutput twoFieldSchema "is_llc" (by decide)

/-- Claim C6, counterexample: the claim says an invalid choice value records
a warning, citing both fillers; but `fillPDFFieldsWithLib` fed the invalid
option `"Purple"` leaves the radio group unchanged and logs nothing. -/
theorem choice_guard_lib_silent_counterexample :
    fillPDFFieldsWithLib ⟨[colorRadio]⟩ [("color", "Purple")] = (⟨[colorRadio]⟩, []) := by
  decide

/-- Claim C6, amended: for a radio or dropdown widget and a value not among
its options, both fillers leave the widget (hence its prior selection)
unchanged and never raise; the route's filler records a warning, while
`fillPDFFieldsWithLib` skips silently. -/
theorem choice_guard_invalid_option (w : Widget) (value : String)
    (hk : w.kind = WidgetKind.radio ∨ w.kind = WidgetKind.dropdown)
    (hv : w.options.contains value = false) :
    (fillWidgetRoute w value).1 = w ∧ (fillWidgetRoute w value).2 ≠ [] ∧
      (fillWidgetLib w value).1 = w ∧ (fillWidgetLib w value).2 = [] := by
  have hv' : value ∉ w.options := by simpa using hv
  rcases hk with hk | hk <;>
    simp [fillWidgetRoute, fillWidgetLib, hk, hv']

/-- Claim C6, witness: the guard on a concrete radio group and the invalid
option `"Purple"`. -/
theorem choice_guard_invalid_option_witness :
    (fillWidgetRoute colorRadio "Purple").1 = colorRadio ∧
      (fillWidgetRoute colorRadio "Purple").2 ≠ [] ∧
      (fillWidgetLib colorRadio "Purple").1 = colorRadio ∧
      (fillWidgetLib colorRadio "Purple").2 = [] :=
  choice_guard_invalid_option colorRadio "Purple" (Or.inl rfl) (by decide)

/-- Claim C7, counterexample: the claim says validation accepts only
descriptors with a non-empty name and a valid kind, and that an empty schema
is rejected; but `validatePDFFields` accepts the empty list and a descriptor
with an empty name and the kind string `"bogus"`. -/
theorem validate_malformed_accepted_counterexample :
    validatePDFFields [] = true ∧
      validatePDFFields [⟨Json.str "", Json.str "", Json.str "bogus", none⟩] = true :=
  ⟨rfl, rfl⟩

/-- Claim C7, amended: `validatePDFFields` checks only that each descriptor's
`name` and `type` are strings (`typeof` checks); in particular every
statically-typed descriptor list — including the empty list, empty names and
unknown kind strings — passes, and the caller rejects only when some entry
carries a non-string `name` or `type`. -/
theorem validate_accepts_all_string_typed (fields : List PDFField) :
    validatePDFFields (fields.map PDFField.toDyn) = true := by
  simp [validatePDFFields, List.all_eq_true, PDFField.toDyn, jsTypeofIsString]

/-- Claim C8: when the cleaned model response does not decode, the fill
route answers `success := false` with the parse-failure message and no
`fields` map, and `extractJsonObject` on brace-free prose raises the
`ResponseParseError` (`No JSON object found in model output`). -/
theorem parse_failure_fails_request (pdfFields : List PDFField) (doc : PDFDoc)
    (aiText blobUrl : String)
    (hparse : jsonParse (cleanAIResponse aiText) = none) :
    postHandleAIResponse pdfFields doc aiText blobUrl =
      { success := false, filledPdfUrl := none,
        message := "Failed to parse AI response for field values", fields := none } ∧
      extractJsonObject proseResponse =
        Except.error "No JSON object found in model output" := by
  constructor
  · unfold postHandleAIResponse
    rw [hparse]
  · rfl

/-- Claim C8, witness: the failure response on concrete prose with no JSON
braces. -/
theorem parse_failure_fails_request_witness :
    postHandleAIResponse twoFieldSchema agreeDoc proseResponse "https://blob.example/filled.pdf" =
      { success := false, filledPdfUrl := none,
        message := "Failed to parse AI response for field values", fields := none } ∧
      extractJsonObject proseResponse =
        Except.error "No JSON object found in model output" :=
  parse_failure_fails_request twoFieldSchema agreeDoc proseResponse
    "https://blob.example/filled.pdf" rfl

/-- Claim C9: filling is schema-preserving — extracting descriptors from the
filled document yields the same sequence of (name, kind) pairs as extracting
from the original, for every document and every value map. -/
theorem fill_then_extract_preserves_schema (doc : PDFDoc) (values : List (String × String)) :
    (extractPDFFields ((fillPDFFields doc values).1)).map (fun f => (f.name, f.type)) =
      (extractPDFFields doc).map (fun f => (f.name, f.type)) := by
  have h : extractPDFFields ((fillPDFFields doc values).1) = extractPDFFields doc := by
    rw [extract_eq_map_sig, extract_eq_map_sig, fillPDFFields_sig]
  rw [h]

/-- Claim C10: a falsy raw value (empty string, `false`, `0`, `null`) never
reaches the filler — its key is absent from the sanitized map — and when
every checkbox-widget value in the raw map is a boolean (the shape the
value-generation prompt demands), the route's fill pass never transitions a
checkbox from checked to unchecked. -/
theorem falsy_dropped_and_never_unchecks (raw : List (String × Json)) (doc : PDFDoc)
    (hnd : (raw.map Prod.fst).Nodup)
    (hshape : ∀ kv ∈ raw, ∀ w₀,
      doc.fields.find? (fun w => w.name = kv.1) = some w₀ →
      w₀.kind = WidgetKind.checkbox → ∃ b, kv.2 = Json.bool b) :
    (∀ k v, (k, v) ∈ raw → jsTruthy v = false →
      k ∉ (sanitizeFieldValues raw (extractPDFFields doc)).map Prod.fst) ∧
    List.Forall₂
      (fun w w' => w.kind = WidgetKind.checkbox → w.checked = true → w'.checked = true)
      doc.fields
      ((fillPDFFields doc (sanitizeFieldValues raw (extractPDFFields doc))).1).fields := by
  constructor
  · intro k v hmem hfalsy
    exact sanitize_falsy_dropped raw (extractPDFFields doc) k v hnd hmem hfalsy
  · have hcb : ∀ p ∈ sanitizeFieldValues raw (extractPDFFields doc), ∀ w₀,
        doc.fields.find? (fun w => w.name = p.1) = some w₀ →
        w₀.kind = WidgetKind.checkbox → shouldCheckRoute p.2 = true := by
      intro p hp w₀ hw₀ hk
      obtain ⟨v, f, hm, ht, hfind, hval⟩ :=
        sanitize_mem raw (extractPDFFields doc) p.1 p.2 hp
      rw [extract_find? doc p.1, hw₀, Option.map_some'] at hfind
      injection hfind with hf
      obtain ⟨b, hb⟩ := hshape (p.1, v) hm w₀ hw₀ hk
      dsimp only at hb
      subst hb
      cases b with
      | false => simp [jsTruthy] at ht
      | true =>
        have hml : f.maxLength = none := by
          rw [← hf]
          rcases w₀ with ⟨n, k₀, ml, os, tv, ch, sel⟩
          simp only at hk
          subst hk
          rfl
        rw [hval, sanitizeValue_bool_true f hml]
        decide
    have h := fillPDFFields_wRel doc (sanitizeFieldValues raw (extractPDFFields doc)) hcb
    exact h.imp (fun _ _ r => r.2)

/-- Claim C10, witness: the boolean `false` for the checked checkbox `agree`
is dropped by sanitization and the checkbox stays checked through the fill. -/
theorem falsy_dropped_and_never_unchecks_witness :
    (∀ k v, (k, v) ∈ falseCheckboxRaw → jsTruthy v = false →
      k ∉ (sanitizeFieldValues falseCheckboxRaw (extractPDFFields agreeDoc)).map Prod.fst) ∧
    List.Forall₂
      (fun w w' => w.kind = WidgetKind.checkbox → w.checked = true → w'.checked = true)
      agreeDoc.fields
      ((fillPDFFields agreeDoc
        (sanitizeFieldValues falseCheckboxRaw (extractPDFFields agreeDoc))).1).fields :=
  falsy_dropped_and_never_unchecks falseCheckboxRaw agreeDoc (by decide)
    (by
      intro kv hkv w₀ hw₀ hk
      simp only [falseCheckboxRaw, List.mem_singleton] at hkv
      subst hkv
      exact ⟨false, rfl⟩)

end FormEase
